import Mathlib

/-!
Shallow embedding of the core anomaly-detection pipeline from the notebook
source file (Exercises) Introduction_TimeSeries_Anomaly_Detection.ipynb:
series resampling, chronological train/test split, SARIMAX model
construction, forecast bound estimation, and anomaly classification.

Timestamps and metric values are modelled as rational numbers; the
standard deviation used by the bound estimator involves a square root and
is therefore modelled in the real numbers.
-/

/-- A data row of the metric dataframe: the pair (ds, y), i.e.
(timestamp, metric value). Timestamps are rationals (seconds since a
fixed epoch), values are rationals. -/
abbrev Sample := ℚ × ℚ

/-- Comparison on rows by the ds (timestamp) column, as used by
the sort_values call of split_data in the source. -/
def tsLe (a b : Sample) : Bool := decide (a.1 ≤ b.1)

/-- The holdout ratio: the source split_data hardcodes ratio = 0.2. -/
def ratio : ℚ := 1 / 5

/-- The split point of split_data: size = int(len(dataframe) * (1 - ratio)).
Python int() truncates toward zero, which is the floor for the nonnegative
quantities occurring here. -/
def split_size (r : ℚ) (n : ℕ) : ℕ := Nat.floor ((n : ℚ) * (1 - r))

/-- The body of split_data from the source, with the local constant
ratio = 0.2 generalised to a parameter r so that the property claimed for
every holdout ratio can be stated; split_data below instantiates r with
the hardcoded 0.2. The dataframe is first sorted by the ds column, then
cut at size = int(n * (1 - r)) into the prefix train and suffix test. -/
def split_data_ratio (r : ℚ) (df : List Sample) : List Sample × List Sample :=
  ((df.mergeSort tsLe).take (split_size r df.length),
   (df.mergeSort tsLe).drop (split_size r df.length))

/-- split_data from the source: sorts by ds, sets ratio = 0.2, computes
size = int(len * (1 - ratio)) and returns (dataframe[0:size],
dataframe[size:len]). It performs no validation and has no failure path. -/
def split_data (df : List Sample) : List Sample × List Sample :=
  split_data_ratio ratio df

/-- The seasonal-period computation at the top of the source function
_sarima: sfrequency starts at 0 and is reassigned by the if/elif chain on
the freq string; any unrecognised freq keeps the initial value 0. -/
def sfrequency (freq : String) : ℕ :=
  if freq = "1h" then 24
  else if freq = "30Min" then 48
  else if freq = "15Min" then 96
  else if freq = "1d" then 1
  else 0

/-- The arguments of the SARIMAX model constructor call made by _sarima:
the nonseasonal order (p, d, q), the seasonal order (P, D, Q, m), and the
two enforcement flags. -/
structure SARIMAXCall where
  order : ℕ × ℕ × ℕ
  seasonal_order : ℕ × ℕ × ℕ × ℕ
  enforce_stationarity : Bool
  enforce_invertibility : Bool
deriving DecidableEq

/-- The model construction performed by _sarima in the source: it computes
sfrequency from freq and then calls
SARIMAX(train, order=(1,2,2), seasonal_order=(2,2,2,sfrequency),
enforce_stationarity=True, enforce_invertibility=False). The numerical
fitting, plotting and printing done afterwards are external library and
I/O effects outside the embedded data path. -/
def _sarima (freq : String) : SARIMAXCall :=
  ⟨(1, 2, 2), (2, 2, 2, sfrequency freq), true, false⟩

/-- Population variance as computed by np.std with its default ddof = 0:
the mean of squared deviations from the mean. On the empty list Lean
division by zero makes this 0; emptiness is handled separately in npStd,
where numpy instead produces NaN. -/
def popVar (xs : List ℚ) : ℚ :=
  ((xs.map (fun x => (x - xs.sum / (xs.length : ℚ)) ^ 2)).sum) / (xs.length : ℚ)

/-- np.std on a dataframe slice: NaN (modelled as none) on an empty slice,
otherwise the square root of the population variance (ddof = 0, the numpy
default). -/
noncomputable def npStd (xs : List ℚ) : Option ℝ :=
  if xs.isEmpty then none else some (Real.sqrt ((popVar xs : ℚ) : ℝ))

/-- Entry i of the upper bound array built in the source function
evaluation: forecast[predict][i] + (np.std(forecast[:i]) * 2). Note the
slice forecast[:i] excludes index i; at i = 0 it is empty and the bound is
NaN (none). -/
noncomputable def upper_bound (forecast : List ℚ) (i : ℕ) : Option ℝ :=
  (npStd (forecast.take i)).map (fun s => ((forecast.getD i 0 : ℚ) : ℝ) + s * 2)

/-- Entry i of the lower bound array built in the source function
evaluation: forecast[predict][i] - (np.std(forecast[:i]) * 2). -/
noncomputable def lower_bound (forecast : List ℚ) (i : ℕ) : Option ℝ :=
  (npStd (forecast.take i)).map (fun s => ((forecast.getD i 0 : ℚ) : ℝ) - s * 2)

/-- The full upper_bound numpy array of the source function evaluation,
one entry per forecast index. -/
noncomputable def upper_bound_arr (forecast : List ℚ) : List (Option ℝ) :=
  (List.range forecast.length).map (upper_bound forecast)

/-- The full lower_bound numpy array of the source function evaluation,
one entry per forecast index. -/
noncomputable def lower_bound_arr (forecast : List ℚ) : List (Option ℝ) :=
  (List.range forecast.length).map (lower_bound forecast)

/-- Sample variance following the words of the specification for the
bound estimator: squared deviations from the mean divided by (n - 1),
over the window predict[0..i] that includes index i. At n = 1 the Lean
convention 0-denominator division yields 0, matching the requirement
that a single-point window have standard deviation 0. This definition
follows the specification text, for comparison with the source-derived
upper_bound and lower_bound. -/
def sampleVar_spec (xs : List ℚ) : ℚ :=
  ((xs.map (fun x => (x - xs.sum / (xs.length : ℚ)) ^ 2)).sum) / ((xs.length : ℚ) - 1)

/-- Upper bound following the words of the specification: predict[i] plus
k times the sample standard deviation of the inclusive growing window
predict[0..i]. -/
noncomputable def upper_bound_spec (k : ℚ) (forecast : List ℚ) (i : ℕ) : ℝ :=
  ((forecast.getD i 0 : ℚ) : ℝ) + (k : ℝ) * Real.sqrt ((sampleVar_spec (forecast.take (i + 1)) : ℚ) : ℝ)

/-- Lower bound following the words of the specification: predict[i] minus
k times the sample standard deviation of the inclusive growing window
predict[0..i]. -/
noncomputable def lower_bound_spec (k : ℚ) (forecast : List ℚ) (i : ℕ) : ℝ :=
  ((forecast.getD i 0 : ℚ) : ℝ) - (k : ℝ) * Real.sqrt ((sampleVar_spec (forecast.take (i + 1)) : ℚ) : ℝ)

/-- Float comparison a < b where b may be NaN (none); any comparison with
NaN is false. -/
def ltOpt (a : ℝ) : Option ℝ → Prop
  | some u => a < u
  | none => False

/-- Float comparison a > b where b may be NaN (none); any comparison with
NaN is false. -/
def gtOpt (a : ℝ) : Option ℝ → Prop
  | some l => l < a
  | none => False

open Classical in
/-- The anomaly column built by the loop in the source function
evaluation: for each row i of the joined frame, 0 if
(y[i] < UpperBound[i]) and (y[i] > LowerBound[i]), else 1. The joined
frame aligns the y column of test with the predict column of forecast by
position. -/
noncomputable def anomalies (test forecast : List ℚ) : List ℕ :=
  (List.range test.length).map (fun i =>
    if ltOpt ((test.getD i 0 : ℚ) : ℝ) (upper_bound forecast i) ∧
       gtOpt ((test.getD i 0 : ℚ) : ℝ) (lower_bound forecast i)
    then 0 else 1)

/-- The bucket index of a timestamp for bucket width w: buckets are the
half-open intervals [b * w, (b + 1) * w) aligned to the epoch, as produced
by the resample call of the source for calendar-aligned frequencies. -/
def bucket (w ts : ℚ) : ℤ := ⌊ts / w⌋

/-- Whether a row falls into bucket b for bucket width w. -/
def sameBucket (w : ℚ) (b : ℤ) (s : Sample) : Bool := decide (bucket w s.1 = b)

/-- The resampling line of the source,
m_values.resample(freq).mean() followed by dropna(), modelled on a
chronologically ordered row list: consecutive rows in the same
fixed-width bucket are merged into one output row labelled by the bucket
start, carrying the arithmetic mean of their values; empty buckets
produce no row (resample emits them as NaN rows and dropna removes
them). -/
def resample_mean (w : ℚ) : List Sample → List Sample
  | [] => []
  | x :: xs =>
    (((bucket w x.1 : ℤ) : ℚ) * w,
      ((x :: xs.takeWhile (sameBucket w (bucket w x.1))).map Prod.snd).sum
        / (((x :: xs.takeWhile (sameBucket w (bucket w x.1))).length : ℕ) : ℚ)) ::
      resample_mean w (xs.dropWhile (sameBucket w (bucket w x.1)))
termination_by l => l.length
decreasing_by
  simp only [List.length_cons]
  exact Nat.lt_succ_of_le (List.Sublist.length_le (List.dropWhile_sublist _))

/-! ## Helper lemmas -/

theorem npStd_nil : npStd [] = none := by
  simp [npStd]

theorem popVar_singleton (a : ℚ) : popVar [a] = 0 := by
  simp [popVar]

theorem upper_bound_zero (forecast : List ℚ) : upper_bound forecast 0 = none := by
  simp [upper_bound, npStd]

theorem lower_bound_zero (forecast : List ℚ) : lower_bound forecast 0 = none := by
  simp [lower_bound, npStd]

theorem take_ne_nil_of_one_le (forecast : List ℚ) (i : ℕ) (h1 : 1 ≤ i)
    (h2 : i ≤ forecast.length) : forecast.take i ≠ [] := by
  intro hnil
  have hlen := congrArg List.length hnil
  rw [List.length_take, List.length_nil] at hlen
  omega

theorem npStd_of_ne_nil (xs : List ℚ) (h : xs ≠ []) :
    npStd xs = some (Real.sqrt ((popVar xs : ℚ) : ℝ)) := by
  simp [npStd, h]

theorem upper_bound_formula (forecast : List ℚ) (i : ℕ) (h1 : 1 ≤ i)
    (h2 : i < forecast.length) :
    upper_bound forecast i
      = some (((forecast.getD i 0 : ℚ) : ℝ) + Real.sqrt ((popVar (forecast.take i) : ℚ) : ℝ) * 2) := by
  rw [upper_bound, npStd_of_ne_nil _ (take_ne_nil_of_one_le forecast i h1 (le_of_lt h2))]
  rfl

theorem lower_bound_formula (forecast : List ℚ) (i : ℕ) (h1 : 1 ≤ i)
    (h2 : i < forecast.length) :
    lower_bound forecast i
      = some (((forecast.getD i 0 : ℚ) : ℝ) - Real.sqrt ((popVar (forecast.take i) : ℚ) : ℝ) * 2) := by
  rw [lower_bound, npStd_of_ne_nil _ (take_ne_nil_of_one_le forecast i h1 (le_of_lt h2))]
  rfl

theorem upper_bound_arr_getD (forecast : List ℚ) (i : ℕ) (h : i < forecast.length) :
    (upper_bound_arr forecast).getD i none = upper_bound forecast i := by
  simp [upper_bound_arr, List.getD_eq_getElem?_getD, List.getElem?_range h]

theorem lower_bound_arr_getD (forecast : List ℚ) (i : ℕ) (h : i < forecast.length) :
    (lower_bound_arr forecast).getD i none = lower_bound forecast i := by
  simp [lower_bound_arr, List.getD_eq_getElem?_getD, List.getElem?_range h]

/-! ## Claim theorems -/

/-- Claim C9: the seasonal forecast model is constructed with
stationarity of the trend component enforced and invertibility of the
moving-average component not enforced, for every cadence: the SARIMAX
call of _sarima always passes enforce_stationarity = True and
enforce_invertibility = False. -/
theorem C9_sarimax_flags (freq : String) :
    (_sarima freq).enforce_stationarity = true ∧
    (_sarima freq).enforce_invertibility = false :=
  ⟨rfl, rfl⟩

/-- Claim C6 counterexample: the cadence string 2h has no seasonal-period
mapping, yet the pipeline does not fail with InvalidCadence; _sarima
proceeds and constructs the SARIMAX call with the fallback seasonal
period 0. -/
theorem C6_cex :
    sfrequency ("2h") = 0 ∧ (_sarima ("2h")).seasonal_order = (2, 2, 2, 0) := by
  refine ⟨?_, ?_⟩ <;> decide

/-- Claim C6 (amended): for every requested cadence outside the
enumerated mapping (1h, 30Min, 15Min, 1d), the code does not fail; the
seasonal period falls back to its initial value 0 and the SARIMAX model
is constructed with seasonal_order (2, 2, 2, 0). -/
theorem C6_fallback_zero (freq : String) (h1 : freq ≠ "1h") (h2 : freq ≠ "30Min")
    (h3 : freq ≠ "15Min") (h4 : freq ≠ "1d") :
    (_sarima freq).seasonal_order = (2, 2, 2, 0) := by
  simp [_sarima, sfrequency, h1, h2, h3, h4]

/-- Claim C6 witness: the amended statement instantiated at the concrete
unmapped cadence 2h. -/
theorem C6_witness : (_sarima ("2h")).seasonal_order = (2, 2, 2, 0) :=
  C6_fallback_zero ("2h") (by decide) (by decide) (by decide) (by decide)

/-- Claim C10: in every evaluation run with a non-empty test set the
anomaly record at index 0 has flag 1 regardless of the observed value:
the bounds at index 0 take the standard deviation of the empty slice
forecast[:0], which is NaN, and the within-band comparisons against NaN
never hold. -/
theorem C10_first_row_anomalous (test forecast : List ℚ)
    (h : 0 < test.length) (hlen : test.length = forecast.length) :
    (anomalies test forecast).getD 0 2 = 1 := by
  simp [anomalies, List.getD_eq_getElem?_getD, List.getElem?_range h,
    upper_bound_zero, ltOpt]

/-- Claim C10 witness: the evaluation of a singleton test set whose value
coincides exactly with the forecast still flags index 0 as an anomaly. -/
theorem C10_witness : (anomalies [(3:ℚ)] [(3:ℚ)]).getD 0 2 = 1 :=
  C10_first_row_anomalous [(3:ℚ)] [(3:ℚ)] (by simp) rfl

/-- Claim C1 counterexample: for the forecast [0, 2] at index 1 the code
produces upperBound[1] = 2, because the standard deviation is taken with
ddof 0 over the exclusive slice forecast[:1] = [0], which is 0; the
claimed formula, the sample standard deviation over the inclusive window
predict[0..1], gives 2 + 2 * sqrt 2 instead, and likewise the lower
bounds differ. -/
theorem C1_cex :
    upper_bound [0, 2] 1 ≠ some (upper_bound_spec 2 [0, 2] 1) ∧
    lower_bound [0, 2] 1 ≠ some (lower_bound_spec 2 [0, 2] 1) := by
  have hsqrt : (0:ℝ) < Real.sqrt 2 := Real.sqrt_pos.mpr (by norm_num)
  have hub : upper_bound [0, 2] 1 = some ((2:ℝ)) := by
    rw [upper_bound_formula [0, 2] 1 (by norm_num) (by norm_num)]
    norm_num [popVar_singleton]
  have hlb : lower_bound [0, 2] 1 = some ((2:ℝ)) := by
    rw [lower_bound_formula [0, 2] 1 (by norm_num) (by norm_num)]
    norm_num [popVar_singleton]
  have hsv : sampleVar_spec (List.take (1 + 1) [0, 2]) = 2 := by
    norm_num [sampleVar_spec]
  have hup : upper_bound_spec 2 [0, 2] 1 = 2 + 2 * Real.sqrt 2 := by
    simp only [upper_bound_spec, hsv]
    norm_num
  have hlo : lower_bound_spec 2 [0, 2] 1 = 2 - 2 * Real.sqrt 2 := by
    simp only [lower_bound_spec, hsv]
    norm_num
  constructor
  · rw [hub, hup]
    simp only [ne_eq, Option.some.injEq]
    intro hcontra
    linarith
  · rw [hlb, hlo]
    simp only [ne_eq, Option.some.injEq]
    intro hcontra
    linarith

/-- Claim C1 (amended): for every forecast and every index i with
1 <= i < n, the bound estimator (with its hardcoded multiplier 2) returns
upperBound[i] = predict[i] + 2 * popstd(predict[0..i-1]) and
lowerBound[i] = predict[i] - 2 * popstd(predict[0..i-1]), where popstd is
the population (ddof = 0) standard deviation of the predicted values
strictly before index i, i.e. of the slice forecast[:i] that excludes
index i; at index 0 that slice is empty and both bounds are undefined
(NaN), not values of the claimed formula. -/
theorem C1_bound_formula (forecast : List ℚ) (i : ℕ) (h1 : 1 ≤ i)
    (h2 : i < forecast.length) :
    (upper_bound_arr forecast).getD i none
      = some (((forecast.get ⟨i, h2⟩ : ℚ) : ℝ)
          + 2 * Real.sqrt ((popVar (forecast.take i) : ℚ) : ℝ)) ∧
    (lower_bound_arr forecast).getD i none
      = some (((forecast.get ⟨i, h2⟩ : ℚ) : ℝ)
          - 2 * Real.sqrt ((popVar (forecast.take i) : ℚ) : ℝ)) ∧
    (upper_bound_arr forecast).getD 0 none = none ∧
    (lower_bound_arr forecast).getD 0 none = none := by
  have h0 : 0 < forecast.length := lt_of_le_of_lt (Nat.zero_le i) h2
  have hgd : forecast.getD i 0 = forecast.get ⟨i, h2⟩ := by
    simp [List.getD_eq_getElem?_getD, List.getElem?_eq_getElem h2, List.get_eq_getElem]
  refine ⟨?_, ?_, ?_, ?_⟩
  · rw [upper_bound_arr_getD forecast i h2, upper_bound_formula forecast i h1 h2, hgd]
    exact congrArg some (by ring)
  · rw [lower_bound_arr_getD forecast i h2, lower_bound_formula forecast i h1 h2, hgd]
    exact congrArg some (by ring)
  · rw [upper_bound_arr_getD forecast 0 h0, upper_bound_zero]
  · rw [lower_bound_arr_getD forecast 0 h0, lower_bound_zero]

/-- Claim C1 witness: the amended statement at the forecast [1, 5] and
index 1, where the exclusive window is the single point [1], its
population standard deviation is 0, and both bounds evaluate to the point
prediction 5. -/
theorem C1_witness :
    (upper_bound_arr [(1:ℚ), (5:ℚ)]).getD 1 none = some (((5:ℚ)):ℝ) ∧
    (lower_bound_arr [(1:ℚ), (5:ℚ)]).getD 1 none = some (((5:ℚ)):ℝ) ∧
    (upper_bound_arr [(1:ℚ), (5:ℚ)]).getD 0 none = none := by
  have h := C1_bound_formula [(1:ℚ), (5:ℚ)] 1 (by norm_num) (by norm_num)
  refine ⟨?_, ?_, h.2.2.1⟩
  · simpa [popVar_singleton] using h.1
  · simpa [popVar_singleton] using h.2.1

/-- Claim C2 counterexample: for the non-empty forecast [5] the bounds at
index 0 are NaN (undefined), not the point prediction 5: the window
forecast[:0] is empty and numpy returns NaN for its standard deviation,
so lowerBound[0] and upperBound[0] never equal predict[0]. -/
theorem C2_cex :
    (upper_bound_arr [(5:ℚ)]).getD 0 none ≠ some (((5:ℚ)):ℝ) ∧
    (lower_bound_arr [(5:ℚ)]).getD 0 none ≠ some (((5:ℚ)):ℝ) := by
  have h0 : (0:ℕ) < ([(5:ℚ)]).length := by norm_num
  constructor
  · rw [upper_bound_arr_getD _ 0 h0, upper_bound_zero]
    simp
  · rw [lower_bound_arr_getD _ 0 h0, lower_bound_zero]
    simp

/-- Claim C2 (amended): for every non-empty forecast, at index 0 the
bound window forecast[:0] is empty, its numpy standard deviation is NaN,
and both bounds are undefined rather than equal to predict[0]; the
single-point window the claim describes occurs at index 1 instead, where
the standard deviation is defined and equal to 0, so
lowerBound[1] = upperBound[1] = predict[1]. -/
theorem C2_index_zero (forecast : List ℚ) (h : 0 < forecast.length) :
    (upper_bound_arr forecast).getD 0 none = none ∧
    (lower_bound_arr forecast).getD 0 none = none ∧
    ∀ h1 : 1 < forecast.length,
      (upper_bound_arr forecast).getD 1 none = some ((forecast.get ⟨1, h1⟩ : ℚ) : ℝ) ∧
      (lower_bound_arr forecast).getD 1 none = some ((forecast.get ⟨1, h1⟩ : ℚ) : ℝ) := by
  refine ⟨by rw [upper_bound_arr_getD forecast 0 h, upper_bound_zero],
          by rw [lower_bound_arr_getD forecast 0 h, lower_bound_zero], ?_⟩
  intro h1
  have htake : popVar (forecast.take 1) = 0 := by
    cases forecast with
    | nil => simp at h
    | cons a tl => simp [popVar_singleton]
  have hgd : forecast.getD 1 0 = forecast.get ⟨1, h1⟩ := by
    simp [List.getD_eq_getElem?_getD, List.getElem?_eq_getElem h1, List.get_eq_getElem]
  constructor
  · rw [upper_bound_arr_getD forecast 1 h1, upper_bound_formula forecast 1 le_rfl h1,
      htake, hgd]
    norm_num
  · rw [lower_bound_arr_getD forecast 1 h1, lower_bound_formula forecast 1 le_rfl h1,
      htake, hgd]
    norm_num

/-- Claim C2 witness: the amended statement at the forecast [5, 7]: both
bounds at index 0 are undefined, and both bounds at index 1 equal the
point prediction 7. -/
theorem C2_witness :
    (upper_bound_arr [(5:ℚ), (7:ℚ)]).getD 0 none = none ∧
    (lower_bound_arr [(5:ℚ), (7:ℚ)]).getD 0 none = none ∧
    (upper_bound_arr [(5:ℚ), (7:ℚ)]).getD 1 none = some (((7:ℚ)):ℝ) ∧
    (lower_bound_arr [(5:ℚ), (7:ℚ)]).getD 1 none = some (((7:ℚ)):ℝ) := by
  have h := C2_index_zero [(5:ℚ), (7:ℚ)] (by norm_num)
  exact ⟨h.1, h.2.1, by simpa using (h.2.2 (by norm_num)).1,
    by simpa using (h.2.2 (by norm_num)).2⟩

/-- Claim C8 counterexample: for the forecast [7] at index 0 both bounds
are NaN, so there is no band at index 0 and in particular no band
containing the point prediction: the claimed inequality fails at i = 0. -/
theorem C8_cex :
    ¬ ∃ u l : ℝ, (upper_bound_arr [(7:ℚ)]).getD 0 none = some u ∧
        (lower_bound_arr [(7:ℚ)]).getD 0 none = some l ∧
        l ≤ (((7:ℚ)) : ℝ) ∧ (((7:ℚ)) : ℝ) ≤ u := by
  rintro ⟨u, l, hu, hl, hmid⟩
  rw [upper_bound_arr_getD _ 0 (by norm_num), upper_bound_zero] at hu
  exact Option.noConfusion hu

/-- Claim C8 (amended): for every forecast and every index i with
1 <= i < n the band contains the point prediction,
upperBound[i] >= predict[i] >= lowerBound[i]; at index 0 the bounds are
undefined (NaN), so no such band exists there. -/
theorem C8_band_contains (forecast : List ℚ) (i : ℕ) (h1 : 1 ≤ i)
    (h2 : i < forecast.length) :
    ∃ u l : ℝ, (upper_bound_arr forecast).getD i none = some u ∧
      (lower_bound_arr forecast).getD i none = some l ∧
      l ≤ ((forecast.get ⟨i, h2⟩ : ℚ) : ℝ) ∧ ((forecast.get ⟨i, h2⟩ : ℚ) : ℝ) ≤ u := by
  have hgd : forecast.getD i 0 = forecast.get ⟨i, h2⟩ := by
    simp [List.getD_eq_getElem?_getD, List.getElem?_eq_getElem h2, List.get_eq_getElem]
  have hs := Real.sqrt_nonneg ((popVar (forecast.take i) : ℚ) : ℝ)
  refine ⟨((forecast.get ⟨i, h2⟩ : ℚ) : ℝ) + Real.sqrt ((popVar (forecast.take i) : ℚ) : ℝ) * 2,
         ((forecast.get ⟨i, h2⟩ : ℚ) : ℝ) - Real.sqrt ((popVar (forecast.take i) : ℚ) : ℝ) * 2,
         ?_, ?_, by linarith, by linarith⟩
  · rw [upper_bound_arr_getD forecast i h2, upper_bound_formula forecast i h1 h2, hgd]
  · rw [lower_bound_arr_getD forecast i h2, lower_bound_formula forecast i h1 h2, hgd]

/-- Claim C8 witness: the amended statement at the forecast [2, 6] and
index 1, where the band degenerates to the single point 6 and contains
the point prediction 6. -/
theorem C8_witness :
    ∃ u l : ℝ, (upper_bound_arr [(2:ℚ), (6:ℚ)]).getD 1 none = some u ∧
      (lower_bound_arr [(2:ℚ), (6:ℚ)]).getD 1 none = some l ∧
      l ≤ (((6:ℚ)) : ℝ) ∧ (((6:ℚ)) : ℝ) ≤ u := by
  have h := C8_band_contains [(2:ℚ), (6:ℚ)] 1 (by norm_num) (by norm_num)
  simpa using h

open Classical in
theorem anomalies_getD (test forecast : List ℚ) (i : ℕ) (hi : i < test.length) :
    (anomalies test forecast).getD i 2 =
      if ltOpt ((test.getD i 0 : ℚ) : ℝ) (upper_bound forecast i) ∧
         gtOpt ((test.getD i 0 : ℚ) : ℝ) (lower_bound forecast i)
      then 0 else 1 := by
  rw [anomalies, List.getD_eq_getElem?_getD, List.getElem?_map, List.getElem?_range hi,
    Option.map_some', Option.getD_some]

/-- Claim C3: the classifier produces one anomaly flag per test row, in
row order (the output has the length of test and entry i refers to test
row i), and whenever the band at i is the pair of defined values (l, u)
the flag at i is 1 exactly when NOT (l < actualValue < u), with strict
inequality on both sides, so a value exactly equal to either bound is
classified anomalous. -/
theorem C3_classifier (test forecast : List ℚ) (hlen : test.length = forecast.length) :
    (anomalies test forecast).length = test.length ∧
    ∀ i, i < test.length → ∀ l u : ℝ,
      lower_bound forecast i = some l → upper_bound forecast i = some u →
      ((anomalies test forecast).getD i 2 = 1 ↔
        ¬ (l < ((test.getD i 0 : ℚ) : ℝ) ∧ ((test.getD i 0 : ℚ) : ℝ) < u)) := by
  refine ⟨by simp [anomalies], ?_⟩
  intro i hi l u hl hu
  rw [anomalies_getD test forecast i hi, hl, hu]
  simp only [ltOpt, gtOpt]
  by_cases hc : l < ((test.getD i 0 : ℚ) : ℝ) ∧ ((test.getD i 0 : ℚ) : ℝ) < u
  · rw [if_pos ⟨hc.2, hc.1⟩]
    exact iff_of_false (by norm_num) (not_not_intro hc)
  · rw [if_neg (fun hcon => hc ⟨hcon.2, hcon.1⟩)]
    exact iff_of_true rfl hc

/-- Claim C3 witness: test row 1 has actual value 10 exactly equal to the
degenerate band (10, 10) of the forecast [10, 10]; its flag is 1, i.e. a
value on the bound is classified anomalous, and the output has one flag
per test row. -/
theorem C3_witness :
    (anomalies [(10:ℚ), (10:ℚ)] [(10:ℚ), (10:ℚ)]).length = 2 ∧
    (anomalies [(10:ℚ), (10:ℚ)] [(10:ℚ), (10:ℚ)]).getD 1 2 = 1 := by
  have h := C3_classifier [(10:ℚ), (10:ℚ)] [(10:ℚ), (10:ℚ)] rfl
  have hl : lower_bound [(10:ℚ), (10:ℚ)] 1 = some (((10:ℚ)):ℝ) := by
    rw [lower_bound_formula [(10:ℚ), (10:ℚ)] 1 (by norm_num) (by norm_num)]
    norm_num [popVar_singleton]
  have hu : upper_bound [(10:ℚ), (10:ℚ)] 1 = some (((10:ℚ)):ℝ) := by
    rw [upper_bound_formula [(10:ℚ), (10:ℚ)] 1 (by norm_num) (by norm_num)]
    norm_num [popVar_singleton]
  refine ⟨by simpa using h.1, ?_⟩
  rw [h.2 1 (by norm_num) _ _ hl hu]
  norm_num

/-- Claim C4: for every chronologically ordered series and every holdout
ratio r in (0, 1), the splitter returns the chronological prefix of
length floor(n * (1 - r)) and the remaining suffix: the two parts
concatenate back to the series, their lengths sum to n, and every train
timestamp precedes every test timestamp (no shuffling). The source
hardcodes r = 0.2 = ratio, recorded by the first conjunct. -/
theorem C4_split (df : List Sample) (r : ℚ) (h0 : 0 < r) (h1 : r < 1)
    (hs : df.Pairwise (fun a b => a.1 < b.1)) :
    split_data df = split_data_ratio ratio df ∧
    (split_data_ratio r df).1.length = Nat.floor ((df.length : ℚ) * (1 - r)) ∧
    (split_data_ratio r df).1 ++ (split_data_ratio r df).2 = df ∧
    (split_data_ratio r df).1.length + (split_data_ratio r df).2.length = df.length ∧
    ∀ a ∈ (split_data_ratio r df).1, ∀ b ∈ (split_data_ratio r df).2, a.1 < b.1 := by
  have hms : df.mergeSort tsLe = df :=
    List.mergeSort_of_sorted (hs.imp (fun hab => by
      simp only [tsLe, decide_eq_true_eq]
      exact le_of_lt hab))
  have hsize : split_size r df.length ≤ df.length := by
    have hle : (df.length : ℚ) * (1 - r) ≤ ((df.length : ℚ)) := by
      nlinarith [Nat.cast_nonneg (α := ℚ) df.length]
    calc split_size r df.length
        ≤ Nat.floor ((df.length : ℚ)) := Nat.floor_le_floor hle
      _ = df.length := Nat.floor_natCast df.length
  have happ : (split_data_ratio r df).1 ++ (split_data_ratio r df).2 = df := by
    simp [split_data_ratio, hms, List.take_append_drop]
  refine ⟨rfl, ?_, happ, ?_, ?_⟩
  · simp only [split_data_ratio, List.length_take, hms]
    exact min_eq_left hsize
  · have hsum := congrArg List.length happ
    simpa using hsum
  · have hp : (((split_data_ratio r df).1) ++ ((split_data_ratio r df).2)).Pairwise
        (fun a b => a.1 < b.1) := by
      rw [happ]
      exact hs
    exact (List.pairwise_append.mp hp).2.2

/-- Claim C4 witness: the claim instantiated at a five-point series with
r = 1/5: the train prefix has length floor(5 * 4/5) = 4. -/
theorem C4_witness :
    split_data ([((0:ℚ), (1:ℚ)), ((1:ℚ), (2:ℚ)), ((2:ℚ), (3:ℚ)), ((3:ℚ), (4:ℚ)),
        ((4:ℚ), (5:ℚ))])
      = split_data_ratio ratio ([((0:ℚ), (1:ℚ)), ((1:ℚ), (2:ℚ)), ((2:ℚ), (3:ℚ)),
        ((3:ℚ), (4:ℚ)), ((4:ℚ), (5:ℚ))]) ∧
    (split_data_ratio (1/5) ([((0:ℚ), (1:ℚ)), ((1:ℚ), (2:ℚ)), ((2:ℚ), (3:ℚ)),
        ((3:ℚ), (4:ℚ)), ((4:ℚ), (5:ℚ))])).1.length
      = Nat.floor ((([((0:ℚ), (1:ℚ)), ((1:ℚ), (2:ℚ)), ((2:ℚ), (3:ℚ)), ((3:ℚ), (4:ℚ)),
        ((4:ℚ), (5:ℚ))] : List Sample).length : ℚ) * (1 - 1/5)) ∧
    (split_data_ratio (1/5) ([((0:ℚ), (1:ℚ)), ((1:ℚ), (2:ℚ)), ((2:ℚ), (3:ℚ)),
        ((3:ℚ), (4:ℚ)), ((4:ℚ), (5:ℚ))])).1
      ++ (split_data_ratio (1/5) ([((0:ℚ), (1:ℚ)), ((1:ℚ), (2:ℚ)), ((2:ℚ), (3:ℚ)),
        ((3:ℚ), (4:ℚ)), ((4:ℚ), (5:ℚ))])).2
      = [((0:ℚ), (1:ℚ)), ((1:ℚ), (2:ℚ)), ((2:ℚ), (3:ℚ)), ((3:ℚ), (4:ℚ)),
        ((4:ℚ), (5:ℚ))] ∧
    (split_data_ratio (1/5) ([((0:ℚ), (1:ℚ)), ((1:ℚ), (2:ℚ)), ((2:ℚ), (3:ℚ)),
        ((3:ℚ), (4:ℚ)), ((4:ℚ), (5:ℚ))])).1.length
      + (split_data_ratio (1/5) ([((0:ℚ), (1:ℚ)), ((1:ℚ), (2:ℚ)), ((2:ℚ), (3:ℚ)),
        ((3:ℚ), (4:ℚ)), ((4:ℚ), (5:ℚ))])).2.length
      = ([((0:ℚ), (1:ℚ)), ((1:ℚ), (2:ℚ)), ((2:ℚ), (3:ℚ)), ((3:ℚ), (4:ℚ)),
        ((4:ℚ), (5:ℚ))] : List Sample).length ∧
    ∀ a ∈ (split_data_ratio (1/5) ([((0:ℚ), (1:ℚ)), ((1:ℚ), (2:ℚ)), ((2:ℚ), (3:ℚ)),
        ((3:ℚ), (4:ℚ)), ((4:ℚ), (5:ℚ))])).1,
      ∀ b ∈ (split_data_ratio (1/5) ([((0:ℚ), (1:ℚ)), ((1:ℚ), (2:ℚ)), ((2:ℚ), (3:ℚ)),
        ((3:ℚ), (4:ℚ)), ((4:ℚ), (5:ℚ))])).2, a.1 < b.1 :=
  C4_split ([((0:ℚ), (1:ℚ)), ((1:ℚ), (2:ℚ)), ((2:ℚ), (3:ℚ)), ((3:ℚ), (4:ℚ)),
    ((4:ℚ), (5:ℚ))]) (1/5) (by norm_num) (by norm_num) (by decide)

/-- Claim C5 counterexample: a two-point series is far shorter than
2 * (seasonal period + 1) = 50 for the 1h cadence, yet split_data does
not fail with InsufficientData: it returns the partition
([first point], [second point]). -/
theorem C5_cex :
    ([((0:ℚ), (1:ℚ)), ((1:ℚ), (2:ℚ))] : List Sample).length
        < 2 * (sfrequency ("1h") + 1) ∧
    split_data ([((0:ℚ), (1:ℚ)), ((1:ℚ), (2:ℚ))])
      = ([((0:ℚ), (1:ℚ))], [((1:ℚ), (2:ℚ))]) := by
  constructor
  · decide
  · have hms : List.mergeSort ([((0:ℚ), (1:ℚ)), ((1:ℚ), (2:ℚ))] : List Sample) tsLe
        = [((0:ℚ), (1:ℚ)), ((1:ℚ), (2:ℚ))] :=
      List.mergeSort_of_sorted (by decide)
    have hfl : split_size ratio 2 = 1 := by
      rw [split_size, ratio, Nat.floor_eq_iff (by norm_num)]
      norm_num
    simp [split_data, split_data_ratio, hms, hfl]

/-- Claim C5 (amended): split_data performs no minimum-length validation
and has no InsufficientData failure path: even when the series has fewer
than 2 * (seasonal period + 1) points it still returns the chronological
partition of the sorted series, whose part lengths sum to the series
length. -/
theorem C5_no_validation (df : List Sample)
    (h : df.length < 2 * (sfrequency ("1h") + 1)) :
    (split_data df).1 ++ (split_data df).2 = df.mergeSort tsLe ∧
    (split_data df).1.length + (split_data df).2.length = df.length := by
  have hperm : (df.mergeSort tsLe).length = df.length :=
    (List.mergeSort_perm df tsLe).length_eq
  constructor
  · simp [split_data, split_data_ratio, List.take_append_drop]
  · simp only [split_data, split_data_ratio, List.length_take, List.length_drop, hperm]
    omega

/-- Claim C5 witness: the amended statement at a concrete two-point
series, below the 50-point threshold of the 1h cadence. -/
theorem C5_witness :
    ([((0:ℚ), (1:ℚ)), ((3:ℚ), (4:ℚ))] : List Sample).length
        < 2 * (sfrequency ("1h") + 1) ∧
    ((split_data ([((0:ℚ), (1:ℚ)), ((3:ℚ), (4:ℚ))])).1
        ++ (split_data ([((0:ℚ), (1:ℚ)), ((3:ℚ), (4:ℚ))])).2
        = List.mergeSort ([((0:ℚ), (1:ℚ)), ((3:ℚ), (4:ℚ))]) tsLe ∧
      (split_data ([((0:ℚ), (1:ℚ)), ((3:ℚ), (4:ℚ))])).1.length
        + (split_data ([((0:ℚ), (1:ℚ)), ((3:ℚ), (4:ℚ))])).2.length
        = ([((0:ℚ), (1:ℚ)), ((3:ℚ), (4:ℚ))] : List Sample).length) :=
  ⟨by decide, C5_no_validation ([((0:ℚ), (1:ℚ)), ((3:ℚ), (4:ℚ))]) (by decide)⟩

theorem bucket_mono (w : ℚ) (hw : 0 < w) (a b : ℚ) (h : a ≤ b) :
    bucket w a ≤ bucket w b :=
  Int.floor_le_floor ((div_le_div_iff_of_pos_right hw).mpr h)

theorem filter_eq_takeWhile {α : Type} (p : α → Bool) :
    ∀ (xs : List α), xs.Pairwise (fun a b => p b = true → p a = true) →
      xs.filter p = xs.takeWhile p := by
  intro xs
  induction xs with
  | nil => intro _; rfl
  | cons y ys ih =>
    intro hp
    rcases List.pairwise_cons.mp hp with ⟨hy, hys⟩
    cases hpy : p y with
    | true =>
      rw [List.filter_cons_of_pos hpy, List.takeWhile_cons_of_pos hpy, ih hys]
    | false =>
      have hnpy : ¬ p y = true := by simp [hpy]
      rw [List.filter_cons_of_neg hnpy, List.takeWhile_cons_of_neg hnpy]
      exact List.filter_eq_nil_iff.mpr (fun a ha hpa => hnpy (hy a ha hpa))

theorem resample_mean_nil (w : ℚ) : resample_mean w [] = [] := by
  rw [resample_mean]

theorem resample_mean_cons (w : ℚ) (x : Sample) (xs : List Sample) :
    resample_mean w (x :: xs) =
      (((bucket w x.1 : ℤ) : ℚ) * w,
        ((x :: xs.takeWhile (sameBucket w (bucket w x.1))).map Prod.snd).sum
          / ((x :: xs.takeWhile (sameBucket w (bucket w x.1))).length : ℚ)) ::
      resample_mean w (xs.dropWhile (sameBucket w (bucket w x.1))) := by
  rw [resample_mean]

theorem resample_mean_spec (w : ℚ) (hw : 0 < w) :
    ∀ (n : ℕ) (l : List Sample), l.length ≤ n →
      l.Pairwise (fun a b => a.1 ≤ b.1) →
      ((∀ p ∈ resample_mean w l, ∃ b : ℤ, p.1 = (b : ℚ) * w ∧
          l.filter (sameBucket w b) ≠ [] ∧
          p.2 = ((l.filter (sameBucket w b)).map Prod.snd).sum
              / ((l.filter (sameBucket w b)).length : ℚ)) ∧
       (∀ s ∈ l, ∃ p ∈ resample_mean w l, p.1 = ((bucket w s.1 : ℤ) : ℚ) * w) ∧
       (resample_mean w l).Pairwise (fun p q => p.1 < q.1)) := by
  intro n
  induction n with
  | zero =>
    intro l hlen _
    have hnil : l = [] := List.length_eq_zero.mp (Nat.le_zero.mp hlen)
    subst hnil
    refine ⟨?_, ?_, ?_⟩ <;> simp [resample_mean_nil]
  | succ n ih =>
    intro l hlen hp
    cases l with
    | nil =>
      refine ⟨?_, ?_, ?_⟩ <;> simp [resample_mean_nil]
    | cons x xs =>
      have hpx : sameBucket w (bucket w x.1) x = true := by
        simp [sameBucket]
      have hx : ∀ a ∈ xs, x.1 ≤ a.1 := (List.pairwise_cons.mp hp).1
      have hxs : xs.Pairwise (fun a b => a.1 ≤ b.1) := (List.pairwise_cons.mp hp).2
      have hcond : xs.Pairwise (fun a b => sameBucket w (bucket w x.1) b = true →
          sameBucket w (bucket w x.1) a = true) := by
        refine (List.Pairwise.and_mem.mp hxs).imp ?_
        intro a b hab hsb
        rcases hab with ⟨ha, hb, hab⟩
        simp only [sameBucket, decide_eq_true_eq] at hsb ⊢
        have h1 : bucket w a.1 ≤ bucket w b.1 := bucket_mono w hw _ _ hab
        have h2 : bucket w x.1 ≤ bucket w a.1 := bucket_mono w hw _ _ (hx a ha)
        omega
      have hfilter : (x :: xs).filter (sameBucket w (bucket w x.1))
          = x :: xs.takeWhile (sameBucket w (bucket w x.1)) := by
        rw [List.filter_cons_of_pos hpx, filter_eq_takeWhile _ xs hcond]
      have hsplit : x :: xs
          = (x :: xs.takeWhile (sameBucket w (bucket w x.1)))
            ++ xs.dropWhile (sameBucket w (bucket w x.1)) := by
        rw [List.cons_append, List.takeWhile_append_dropWhile]
      have hgrp_all : ∀ s ∈ x :: xs.takeWhile (sameBucket w (bucket w x.1)),
          sameBucket w (bucket w x.1) s = true := by
        intro s hs
        rcases List.mem_cons.mp hs with h | h
        · subst h; exact hpx
        · exact List.mem_takeWhile_imp h
      have hrest_false : ∀ s ∈ xs.dropWhile (sameBucket w (bucket w x.1)),
          ¬ sameBucket w (bucket w x.1) s = true := by
        have h1 : (x :: xs.takeWhile (sameBucket w (bucket w x.1))).filter
              (sameBucket w (bucket w x.1))
            ++ (xs.dropWhile (sameBucket w (bucket w x.1))).filter
              (sameBucket w (bucket w x.1))
            = x :: xs.takeWhile (sameBucket w (bucket w x.1)) := by
          rw [← List.filter_append, ← hsplit, hfilter]
        rw [List.filter_eq_self.mpr hgrp_all] at h1
        have h3 : (xs.dropWhile (sameBucket w (bucket w x.1))).filter
            (sameBucket w (bucket w x.1)) = [] := by
          have h4 : (x :: xs.takeWhile (sameBucket w (bucket w x.1)))
              ++ (xs.dropWhile (sameBucket w (bucket w x.1))).filter
                (sameBucket w (bucket w x.1))
              = (x :: xs.takeWhile (sameBucket w (bucket w x.1))) ++ [] := by
            rw [List.append_nil]
            exact h1
          exact List.append_cancel_left h4
        exact fun s hs => (List.filter_eq_nil_iff.mp h3) s hs
      have hrest_gt : ∀ s ∈ xs.dropWhile (sameBucket w (bucket w x.1)),
          bucket w x.1 < bucket w s.1 := by
        intro s hs
        have hmem : s ∈ xs := (List.dropWhile_sublist _).subset hs
        have hle : bucket w x.1 ≤ bucket w s.1 := bucket_mono w hw _ _ (hx s hmem)
        have hne : ¬ bucket w s.1 = bucket w x.1 := by
          have := hrest_false s hs
          simpa [sameBucket] using this
        omega
      have hrest_sorted : (xs.dropWhile (sameBucket w (bucket w x.1))).Pairwise
          (fun a b => a.1 ≤ b.1) :=
        List.Pairwise.sublist (List.dropWhile_sublist _) hxs
      have hlen_rest : (xs.dropWhile (sameBucket w (bucket w x.1))).length ≤ n := by
        have h1 := List.Sublist.length_le
          (List.dropWhile_sublist (l := xs) (sameBucket w (bucket w x.1)))
        simp only [List.length_cons] at hlen
        omega
      obtain ⟨ihA, ihB, ihC⟩ := ih (xs.dropWhile (sameBucket w (bucket w x.1)))
        hlen_rest hrest_sorted
      have hlift : ∀ b2 : ℤ,
          (xs.dropWhile (sameBucket w (bucket w x.1))).filter (sameBucket w b2) ≠ [] →
          (bucket w x.1 < b2 ∧
            (x :: xs).filter (sameBucket w b2)
              = (xs.dropWhile (sameBucket w (bucket w x.1))).filter (sameBucket w b2)) := by
        intro b2 hne
        obtain ⟨s2, hs2⟩ := List.exists_mem_of_ne_nil _ hne
        have hs2r : s2 ∈ xs.dropWhile (sameBucket w (bucket w x.1)) :=
          List.mem_of_mem_filter hs2
        have hs2b : bucket w s2.1 = b2 := by
          have := List.of_mem_filter hs2
          simpa [sameBucket] using this
        have hgt : bucket w x.1 < b2 := hs2b ▸ hrest_gt s2 hs2r
        refine ⟨hgt, ?_⟩
        rw [hsplit, List.filter_append]
        have hgrp_nil : ((x : Sample) :: xs.takeWhile (sameBucket w (bucket w x.1))).filter
            (sameBucket w b2) = [] := by
          rw [List.filter_eq_nil_iff]
          intro a ha hpa
          have hab : bucket w a.1 = bucket w x.1 := by
            have := hgrp_all a ha
            simpa [sameBucket] using this
          have hab2 : bucket w a.1 = b2 := by
            simpa [sameBucket] using hpa
          omega
        rw [hgrp_nil, List.nil_append]
      refine ⟨?_, ?_, ?_⟩
      · intro p hpmem
        rw [resample_mean_cons] at hpmem
        rcases List.mem_cons.mp hpmem with heq | hmem
        · refine ⟨bucket w x.1, ?_, ?_, ?_⟩
          · rw [heq]
          · rw [hfilter]
            exact List.cons_ne_nil _ _
          · rw [heq, hfilter]
        · obtain ⟨b2, hb2eq, hb2ne, hb2val⟩ := ihA p hmem
          obtain ⟨hgt, hfeq⟩ := hlift b2 hb2ne
          exact ⟨b2, hb2eq, by rw [hfeq]; exact hb2ne, by rw [hfeq]; exact hb2val⟩
      · intro s hs
        rcases List.mem_cons.mp hs with heq | hmem
        · subst heq
          rw [resample_mean_cons]
          exact ⟨_, List.mem_cons_self _ _, rfl⟩
        · have hsplitmem : s ∈ xs.takeWhile (sameBucket w (bucket w x.1))
              ++ xs.dropWhile (sameBucket w (bucket w x.1)) := by
            rw [List.takeWhile_append_dropWhile]
            exact hmem
          rcases List.mem_append.mp hsplitmem with ht | hr
          · have hsb : bucket w s.1 = bucket w x.1 := by
              simpa [sameBucket] using List.mem_takeWhile_imp ht
            rw [resample_mean_cons]
            refine ⟨_, List.mem_cons_self _ _, ?_⟩
            rw [hsb]
          · obtain ⟨p, hpmem, hpeq⟩ := ihB s hr
            rw [resample_mean_cons]
            exact ⟨p, List.mem_cons_of_mem _ hpmem, hpeq⟩
      · rw [resample_mean_cons]
        refine List.pairwise_cons.mpr ⟨?_, ihC⟩
        intro q hq
        obtain ⟨b2, hb2eq, hb2ne, _⟩ := ihA q hq
        obtain ⟨hgt, _⟩ := hlift b2 hb2ne
        rw [hb2eq]
        have hc : ((bucket w x.1 : ℤ) : ℚ) < (b2 : ℚ) := by exact_mod_cast hgt
        exact mul_lt_mul_of_pos_right hc hw

/-- Claim C7: for every chronologically ordered raw sample list and every
positive bucket width, the resampler emits one row per non-empty bucket
and no row for empty buckets: every output row is labelled by the start
b * w of some bucket b containing at least one raw sample and carries the
arithmetic mean of all raw values falling in that bucket; every raw
sample's bucket appears among the output rows; and the output timestamps
are strictly increasing (chronological, with at most one row per
bucket). -/
theorem C7_resampler (w : ℚ) (hw : 0 < w) (l : List Sample)
    (hs : l.Pairwise (fun a b => a.1 ≤ b.1)) :
    (∀ p ∈ resample_mean w l, ∃ b : ℤ, p.1 = (b : ℚ) * w ∧
        l.filter (sameBucket w b) ≠ [] ∧
        p.2 = ((l.filter (sameBucket w b)).map Prod.snd).sum
            / ((l.filter (sameBucket w b)).length : ℚ)) ∧
    (∀ s ∈ l, ∃ p ∈ resample_mean w l, p.1 = ((bucket w s.1 : ℤ) : ℚ) * w) ∧
    (resample_mean w l).Pairwise (fun p q => p.1 < q.1) :=
  resample_mean_spec w hw l.length l le_rfl hs

/-- Claim C7 witness: the claim instantiated at width 1 and the sorted
sample list [(0, 1), (0, 3), (2, 5)], whose non-empty buckets are 0
(mean 2) and 2 (mean 5). -/
theorem C7_witness :
    (∀ p ∈ resample_mean 1 ([((0:ℚ), (1:ℚ)), ((0:ℚ), (3:ℚ)), ((2:ℚ), (5:ℚ))]),
      ∃ b : ℤ, p.1 = (b : ℚ) * 1 ∧
        ([((0:ℚ), (1:ℚ)), ((0:ℚ), (3:ℚ)), ((2:ℚ), (5:ℚ))] : List Sample).filter
          (sameBucket 1 b) ≠ [] ∧
        p.2 = ((([((0:ℚ), (1:ℚ)), ((0:ℚ), (3:ℚ)), ((2:ℚ), (5:ℚ))] : List Sample).filter
              (sameBucket 1 b)).map Prod.snd).sum
            / ((([((0:ℚ), (1:ℚ)), ((0:ℚ), (3:ℚ)), ((2:ℚ), (5:ℚ))] : List Sample).filter
              (sameBucket 1 b)).length : ℚ)) ∧
    (∀ s ∈ ([((0:ℚ), (1:ℚ)), ((0:ℚ), (3:ℚ)), ((2:ℚ), (5:ℚ))] : List Sample),
      ∃ p ∈ resample_mean 1 ([((0:ℚ), (1:ℚ)), ((0:ℚ), (3:ℚ)), ((2:ℚ), (5:ℚ))]),
        p.1 = ((bucket 1 s.1 : ℤ) : ℚ) * 1) ∧
    (resample_mean 1 ([((0:ℚ), (1:ℚ)), ((0:ℚ), (3:ℚ)), ((2:ℚ), (5:ℚ))])).Pairwise
      (fun p q => p.1 < q.1) :=
  C7_resampler 1 (by norm_num) ([((0:ℚ), (1:ℚ)), ((0:ℚ), (3:ℚ)), ((2:ℚ), (5:ℚ))])
    (by decide)
